import Mathlib

/-!
Shallow embedding of the product browsing view implemented in
src/frontend/src/components/Page1.jsx.  The pure decision logic of the
component (fetch-strategy selection, client-side filtering, sorting,
tri-state sort toggling, pagination window display, page-reset effects,
error handling) is translated into Lean definitions.  React state
updates become explicit state-passing functions; the network is an
oracle parameter.
-/

namespace ProductDash

/-- Page size, constant `ITEMS_PER_PAGE` (Page1.jsx line 6). -/
def ITEMS_PER_PAGE : Nat := 10

/-- The sortable columns of `SORT_OPTIONS` (Page1.jsx lines 8-15).  The
`DEFAULT` member marks the absence of an active sort column and is
modelled as `none` in `Option SortCol`. -/
inductive SortCol
  | price
  | rating
  | stock
  | title
  | discount
deriving DecidableEq, Repr

/-- `SORT_ORDER` (Page1.jsx lines 17-20). -/
inductive SortDir
  | asc
  | desc
deriving DecidableEq, Repr

/-- A product record as consumed by the view.  Numeric fields are JS
numbers that the component only subtracts and compares; they are
modelled as integers (decimal values taken in fixed-point, e.g. prices
in cents), which preserves all order and sign behaviour the component
relies on. -/
structure Product where
  id : Nat
  title : String
  description : String
  category : String
  brand : String
  price : Int
  discountPercentage : Int
  rating : Int
  stock : Int
  availabilityStatus : String
deriving DecidableEq, Repr

/-- JS `String.prototype.localeCompare`, modelled as signed lexicographic
code-point comparison (the locale tables are not part of this
repository; the component only uses the sign of the result, line 249). -/
def localeCompare (a b : String) : Int :=
  if a < b then -1 else if b < a then 1 else 0

/-- The signed column comparison computed by the `switch` in the sort
comparator (Page1.jsx lines 238-256): numeric subtraction for
price/rating/stock/discount, `localeCompare` for title. -/
def compareBy : SortCol → Product → Product → Int
  | SortCol.price, a, b => a.price - b.price
  | SortCol.rating, a, b => a.rating - b.rating
  | SortCol.stock, a, b => a.stock - b.stock
  | SortCol.title, a, b => localeCompare a.title b.title
  | SortCol.discount, a, b => a.discountPercentage - b.discountPercentage

/-- The full comparator passed to `Array.prototype.sort` (line 257):
the column comparison, negated when the direction is descending. -/
def dirCompare (col : SortCol) (dir : SortDir) (a b : Product) : Int :=
  match dir with
  | SortDir.asc => compareBy col a b
  | SortDir.desc => -(compareBy col a b)

/-- The key a column sorts by: an integer for the numeric columns, a
string for the title column. -/
inductive SKey
  | num (n : Int)
  | str (s : String)
deriving DecidableEq, Repr

/-- The sort key of a record under a column. -/
def sortKey : SortCol → Product → SKey
  | SortCol.price, a => SKey.num a.price
  | SortCol.rating, a => SKey.num a.rating
  | SortCol.stock, a => SKey.num a.stock
  | SortCol.title, a => SKey.str a.title
  | SortCol.discount, a => SKey.num a.discountPercentage

/-- The integer key of a numeric column (`title` is given a dummy key;
it is excluded wherever `numKey` is used). -/
def numKey : SortCol → Product → Int
  | SortCol.price, a => a.price
  | SortCol.rating, a => a.rating
  | SortCol.stock, a => a.stock
  | SortCol.title, _ => 0
  | SortCol.discount, a => a.discountPercentage

/-- Whether a column compares numerically (all columns except title). -/
def SortCol.isNumeric : SortCol → Bool
  | SortCol.title => false
  | _ => true

/-- The boolean ordering induced by the comparator: `a` may precede `b`
exactly when the comparator is nonpositive, which is the contract of a
JS sort comparator for a stable sort. -/
def sortLe (col : SortCol) (dir : SortDir) (a b : Product) : Bool :=
  dirCompare col dir a b ≤ 0

/-- The pair of React states `sortBy` and `sortOrder`
(Page1.jsx lines 156-157). -/
structure SortState where
  sortBy : Option SortCol
  sortOrder : SortDir
deriving DecidableEq, Repr

/-- The client-side sorting step of `fetchProducts` (lines 234-259):
when a sort column is active the fetched list is sorted with a stable
sort (JS `Array.prototype.sort` is specified stable) under the signed
comparator; otherwise the list is left untouched. -/
def applySort (s : SortState) (l : List Product) : List Product :=
  match s.sortBy with
  | none => l
  | some col => l.mergeSort (fun a b => sortLe col s.sortOrder a b)

/-- `handleSort` (Page1.jsx lines 285-295) acting on the sort state:
a different column activates it ascending; the active column toggles
ascending to descending; descending clears the sort and resets the
direction to ascending. -/
def handleSort (column : SortCol) (s : SortState) : SortState :=
  if s.sortBy ≠ some column then
    { sortBy := some column, sortOrder := SortDir.asc }
  else if s.sortOrder = SortDir.asc then
    { sortBy := some column, sortOrder := SortDir.desc }
  else
    { sortBy := none, sortOrder := SortDir.asc }

/-- The upstream endpoint chosen by `fetchProducts`
(Page1.jsx lines 201-218): the plain listing, the search endpoint, or
the per-category endpoint. -/
inductive Endpoint
  | list
  | search
  | category (slug : String)
deriving DecidableEq, Repr

/-- The request actually issued: endpoint plus the `limit`, `skip` and
optional `q` query parameters (Page1.jsx lines 195-220). -/
structure Query where
  endpoint : Endpoint
  limit : Nat
  skip : Nat
  q : Option String
deriving DecidableEq, Repr

/-- The branch of `fetchProducts` that selects the query shape
(Page1.jsx lines 194-218).  JS string truthiness: a term or filter
participates in a branch exactly when it is nonempty.  In the combined
search+category branch the request over-fetches with `limit = 100` and
`skip = 0`. -/
def selectQuery (debouncedSearchTerm categoryFilter : String) (currentPage : Nat) : Query :=
  let skip := (currentPage - 1) * ITEMS_PER_PAGE
  if debouncedSearchTerm ≠ "" ∧ categoryFilter = "" then
    { endpoint := Endpoint.search, limit := ITEMS_PER_PAGE, skip := skip,
      q := some debouncedSearchTerm }
  else if categoryFilter ≠ "" ∧ debouncedSearchTerm = "" then
    { endpoint := Endpoint.category categoryFilter, limit := ITEMS_PER_PAGE, skip := skip,
      q := none }
  else if debouncedSearchTerm ≠ "" ∧ categoryFilter ≠ "" then
    { endpoint := Endpoint.search, limit := 100, skip := 0,
      q := some debouncedSearchTerm }
  else
    { endpoint := Endpoint.list, limit := ITEMS_PER_PAGE, skip := skip, q := none }

/-- The data portion of an upstream response: the product array and the
reported total. -/
structure FetchResult where
  products : List Product
  total : Nat
deriving Repr

/-- The body of `fetchProducts` after the response arrives
(Page1.jsx lines 220-232), with the network abstracted as the oracle
`server`.  In the combined search+category branch the fetched records
are filtered client-side to the selected category, the total is set to
the filtered count, and the filtered list is sliced to the page window
`[skip, skip + ITEMS_PER_PAGE)`; in all other branches the response is
used as-is. -/
def fetchProducts (server : Query → FetchResult)
    (debouncedSearchTerm categoryFilter : String) (currentPage : Nat) : FetchResult :=
  let skip := (currentPage - 1) * ITEMS_PER_PAGE
  let response := server (selectQuery debouncedSearchTerm categoryFilter currentPage)
  if debouncedSearchTerm ≠ "" ∧ categoryFilter ≠ "" then
    let filtered := response.products.filter (fun p => p.category == categoryFilter)
    { products := (filtered.drop skip).take ITEMS_PER_PAGE, total := filtered.length }
  else
    response

/-- The characters of a string, lower-cased (case-insensitive
containment is containment of these lists). -/
def lowerChars (s : String) : List Char :=
  s.data.map Char.toLower

/-- Modelled from the spec: the upstream full-text search semantics
(the dummyjson search service is not part of this repository).  Per the
spec, a record matches search text when its title, description, or
brand contains the text case-insensitively; empty text matches every
record. -/
def specSearchMatches (q : String) (r : Product) : Bool :=
  lowerChars q <:+: lowerChars r.title
    ∨ lowerChars q <:+: lowerChars r.description
    ∨ lowerChars q <:+: lowerChars r.brand

/-- Modelled from the spec: the full filter predicate of spec section
4.1 - the search part AND (no category selected OR the category of the
record equals the selected one). -/
def specMatches (q cat : String) (r : Product) : Bool :=
  specSearchMatches q r ∧ (cat = "" ∨ r.category = cat)

/-- The page-number list rendered by the pagination bar
(Page1.jsx lines 527-534): pages 1..totalPages filtered to the first
page, the last page, and the pages within distance 1 of the current
page. -/
def pageNumbers (totalPages currentPage : Nat) : List Nat :=
  ((List.range totalPages).map (fun i => i + 1)).filter
    (fun page =>
      page = 1 ∨ page = totalPages ∨ ((page : Int) - (currentPage : Int)).natAbs ≤ 1)

/-- One rendered item of the pagination bar: a page button or the
ellipsis marker. -/
inductive PageItem
  | num (n : Nat)
  | gap
deriving DecidableEq, Repr

/-- The ellipsis insertion of the render loop (Page1.jsx lines 535-539):
an ellipsis marker precedes a page button whenever the previously shown
page is not its immediate predecessor.  `prev` is the page shown before
the remaining list. -/
def withEllipsisFrom : Nat → List Nat → List PageItem
  | _, [] => []
  | prev, p :: rest =>
    (if (prev : Int) ≠ (p : Int) - 1 then [PageItem.gap, PageItem.num p]
     else [PageItem.num p]) ++ withEllipsisFrom p rest

/-- The full rendered pagination item list: the first shown page never
gets a preceding ellipsis (the render guard `index > 0`). -/
def withEllipsis : List Nat → List PageItem
  | [] => []
  | p :: rest => PageItem.num p :: withEllipsisFrom p rest

/-- A network failure, as far as the component can observe one.  The
component never inspects the error object except to log it, so the
kinds are opaque. -/
inductive NetError
  | timeout
  | httpStatus (code : Nat)
  | networkDown
deriving DecidableEq, Repr

/-- The generic user-facing message set by the `catch` of
`fetchProducts` (Page1.jsx line 264). -/
def productsErrorMessage : String :=
  "Failed to fetch products. Please try again later."

/-- The `catch` handler of `fetchProducts` (lines 263-265): every
error, of any kind, sets the error state to the same generic message. -/
def productsOnFailure (_e : NetError) : Option String :=
  some productsErrorMessage

/-- The `catch` handler of `fetchCategories` (lines 179-181): every
error is logged to the console only; no error state is set and nothing
surfaces to the user. -/
def categoriesOnFailure (_e : NetError) : Option String :=
  none

/-- The recovery action offered by the error screen. -/
inductive RecoveryAction
  | reload
deriving DecidableEq, Repr

/-- The error screen (Page1.jsx lines 329-343): the stored message and
a single button whose click handler is `window.location.reload`. -/
structure ErrorScreen where
  message : String
  action : RecoveryAction
deriving DecidableEq, Repr

/-- Rendering the error state (lines 329-343). -/
def renderError (msg : String) : ErrorScreen :=
  { message := msg, action := RecoveryAction.reload }

/-- The filter/sort/pagination state of the component
(Page1.jsx lines 144-158), restricted to the fields the handlers
update. -/
structure AppState where
  searchTerm : String
  debouncedSearchTerm : String
  categoryFilter : String
  sortBy : Option SortCol
  sortOrder : SortDir
  currentPage : Nat
  totalProducts : Nat
  products : List Product
deriving Repr

/-- The initial state of all `useState` hooks (lines 144-158). -/
def initialState : AppState :=
  { searchTerm := "", debouncedSearchTerm := "", categoryFilter := "",
    sortBy := none, sortOrder := SortDir.asc, currentPage := 1,
    totalProducts := 0, products := [] }

/-- `totalPages` (line 280): ceiling division of the total by the page
size. -/
def totalPagesOf (s : AppState) : Nat :=
  (s.totalProducts + ITEMS_PER_PAGE - 1) / ITEMS_PER_PAGE

/-- The state-changing operations of the component: every handler, the
debounce timer firing, and a products response arriving. -/
inductive Action
  | sortClick (c : SortCol)
  | clearFilters
  | searchInput (v : String)
  | categoryChange (v : String)
  | debounceFire
  | pageChange (n : Nat)
  | prevPage
  | nextPage
  | productsLoaded (ps : List Product) (total : Nat)

/-- The state transition of each operation.  `handleSort` is lines
285-295; `handleClearFilters` lines 297-303; `handleSearchChange` line
306; `handleCategoryChange` line 310; `handlePageChange` line 314;
`handlePrevPage` line 319; `handleNextPage` line 324.  The effect at
lines 275-277 resets `currentPage` to 1 whenever one of its
dependencies `debouncedSearchTerm` or `categoryFilter` changes; React
re-runs it exactly when the new value differs from the old, so that
reset is folded into `categoryChange` and `debounceFire` (the debounce
timer of lines 161-167 copying `searchTerm` into
`debouncedSearchTerm`). -/
def step (a : Action) (s : AppState) : AppState :=
  match a with
  | Action.sortClick c =>
    let t := handleSort c { sortBy := s.sortBy, sortOrder := s.sortOrder }
    { s with sortBy := t.sortBy, sortOrder := t.sortOrder }
  | Action.clearFilters =>
    { s with searchTerm := "", categoryFilter := "",
             sortBy := none, sortOrder := SortDir.asc, currentPage := 1 }
  | Action.searchInput v => { s with searchTerm := v }
  | Action.categoryChange v =>
    if v = s.categoryFilter then { s with categoryFilter := v }
    else { s with categoryFilter := v, currentPage := 1 }
  | Action.debounceFire =>
    if s.searchTerm = s.debouncedSearchTerm then
      { s with debouncedSearchTerm := s.searchTerm }
    else
      { s with debouncedSearchTerm := s.searchTerm, currentPage := 1 }
  | Action.pageChange n => { s with currentPage := n }
  | Action.prevPage => { s with currentPage := max (s.currentPage - 1) 1 }
  | Action.nextPage => { s with currentPage := min (s.currentPage + 1) (totalPagesOf s) }
  | Action.productsLoaded ps total => { s with products := ps, totalProducts := total }

/-- The invariant of C10: whenever no sort column is active, the sort
direction is ascending. -/
def sortInvariant (s : AppState) : Prop :=
  s.sortBy = none → s.sortOrder = SortDir.asc

/-- A concrete record used to instantiate universally quantified
theorems. -/
def sampleProduct : Product :=
  { id := 1, title := "Phone Case", description := "A slim case",
    category := "beauty", brand := "Acme", price := 999,
    discountPercentage := 5, rating := 4, stock := 30,
    availabilityStatus := "In Stock" }

/-- A second concrete record, with a different category and price. -/
def sampleProduct2 : Product :=
  { id := 2, title := "Phone Charger", description := "Fast charger",
    category := "electronics", brand := "Bolt", price := 500,
    discountPercentage := 0, rating := 5, stock := 10,
    availabilityStatus := "In Stock" }

/-! ## Theorems -/

/-- C4: the tri-state sort toggle satisfies the transition table:
from unsorted any column activates ascending; the active ascending
column activates descending; the active descending column clears to
unsorted with direction reset to ascending; a different column always
activates ascending. -/
theorem handleSort_tristate (c c2 : SortCol) (d : SortDir) :
    handleSort c { sortBy := none, sortOrder := SortDir.asc }
      = { sortBy := some c, sortOrder := SortDir.asc }
    ∧ handleSort c { sortBy := some c, sortOrder := SortDir.asc }
      = { sortBy := some c, sortOrder := SortDir.desc }
    ∧ handleSort c { sortBy := some c, sortOrder := SortDir.desc }
      = { sortBy := none, sortOrder := SortDir.asc }
    ∧ (c ≠ c2 → handleSort c { sortBy := some c2, sortOrder := d }
      = { sortBy := some c, sortOrder := SortDir.asc }) := by
  refine ⟨by simp [handleSort], by simp [handleSort], by simp [handleSort], fun h => ?_⟩
  simp [handleSort, Ne.symm h]

/-- Witness for C4 at concrete columns. -/
theorem handleSort_tristate_witness :
    handleSort SortCol.price { sortBy := some SortCol.title, sortOrder := SortDir.asc }
      = { sortBy := some SortCol.price, sortOrder := SortDir.asc } :=
  (handleSort_tristate SortCol.price SortCol.title SortDir.asc).2.2.2 (by decide)

/-- C5: from any state with no active sort column, three consecutive
activations of the same column return the sort state to unsorted with
direction ascending, and in that state no comparator is applied: the
displayed list is the fetched list unchanged. -/
theorem triple_activation_returns_to_unsorted (c : SortCol) (d : SortDir) (l : List Product) :
    handleSort c (handleSort c (handleSort c { sortBy := none, sortOrder := d }))
      = { sortBy := none, sortOrder := SortDir.asc }
    ∧ applySort (handleSort c (handleSort c (handleSort c { sortBy := none, sortOrder := d }))) l
      = l := by
  have h : handleSort c (handleSort c (handleSort c { sortBy := none, sortOrder := d }))
      = { sortBy := none, sortOrder := SortDir.asc } := by
    simp [handleSort]
  refine ⟨h, ?_⟩
  rw [h]
  rfl

/-- C6: with the current page above 1, a change of the selected
category, or the debounce timer propagating a changed search term,
resets the current page to 1 (the effect at Page1.jsx lines 275-277). -/
theorem filter_change_resets_page (s : AppState) (v : String) (hpage : 1 < s.currentPage) :
    (v ≠ s.categoryFilter → (step (Action.categoryChange v) s).currentPage = 1)
    ∧ (s.searchTerm ≠ s.debouncedSearchTerm → (step Action.debounceFire s).currentPage = 1) := by
  constructor
  · intro h
    simp [step, if_neg h]
  · intro h
    simp [step, if_neg h]

/-- Witness for C6: on page 5 with an empty category filter, selecting
the beauty category lands on page 1. -/
theorem filter_change_resets_page_witness :
    (step (Action.categoryChange "beauty")
      { initialState with currentPage := 5 }).currentPage = 1 :=
  (filter_change_resets_page { initialState with currentPage := 5 } "beauty"
    (by decide)).1 (by decide)

/-- C7: for 10 total pages and current page 5, the visible page-number
list is exactly [1, 4, 5, 6, 10], and the rendered row places an
ellipsis marker between 1 and 4 and between 6 and 10 (an ellipsis
precedes a shown page exactly when the previously shown page is not
its immediate predecessor). -/
theorem page_window_ten_five :
    pageNumbers 10 5 = [1, 4, 5, 6, 10]
    ∧ withEllipsis (pageNumbers 10 5)
      = [PageItem.num 1, PageItem.gap, PageItem.num 4, PageItem.num 5,
         PageItem.num 6, PageItem.gap, PageItem.num 10] := by
  exact ⟨by decide, by decide⟩

/-- Counterexample to C9 as stated: a failure of the categories fetch
surfaces no user-facing message at all (its catch only logs), while the
claim asserts every fetch failure surfaces the single generic
message. -/
theorem categories_failure_surfaces_nothing :
    categoriesOnFailure NetError.timeout = none
    ∧ productsOnFailure NetError.timeout = some productsErrorMessage :=
  ⟨rfl, rfl⟩

/-- C9 (amended): every products-fetch failure, of any kind, surfaces
the single generic message with a full page reload as the only offered
recovery action, while every categories-fetch failure surfaces no
user-facing message. -/
theorem error_handling_collapsed (e : NetError) :
    productsOnFailure e = some productsErrorMessage
    ∧ categoriesOnFailure e = none
    ∧ renderError productsErrorMessage
      = { message := productsErrorMessage, action := RecoveryAction.reload } :=
  ⟨rfl, rfl, rfl⟩

/-- `handleSort` never leaves a cleared sort column with a descending
direction. -/
lemma handleSort_sortInvariant (c : SortCol) (t : SortState) :
    (handleSort c t).sortBy = none → (handleSort c t).sortOrder = SortDir.asc := by
  unfold handleSort
  split
  · simp
  · split <;> simp

/-- C10: the invariant "no active sort column implies ascending
direction" holds initially and is preserved by every state-changing
operation of the component. -/
theorem sort_direction_invariant :
    sortInvariant initialState
    ∧ ∀ (a : Action) (s : AppState), sortInvariant s → sortInvariant (step a s) := by
  constructor
  · intro _
    rfl
  · intro a s h
    cases a with
    | sortClick c => exact fun hn => handleSort_sortInvariant c _ hn
    | clearFilters => exact fun _ => rfl
    | searchInput v => exact h
    | categoryChange v =>
      simp only [step]
      by_cases hv : v = s.categoryFilter
      · rw [if_pos hv]
        exact h
      · rw [if_neg hv]
        exact h
    | debounceFire =>
      simp only [step]
      by_cases hv : s.searchTerm = s.debouncedSearchTerm
      · rw [if_pos hv]
        exact h
      · rw [if_neg hv]
        exact h
    | pageChange n => exact h
    | prevPage => exact h
    | nextPage => exact h
    | productsLoaded ps total => exact h

/-- Witness for C10: the invariant holds after clearing filters from
the initial state. -/
theorem sort_direction_invariant_witness :
    sortInvariant (step Action.clearFilters initialState) :=
  sort_direction_invariant.2 Action.clearFilters initialState (fun _ => rfl)

/-- C2: the fetch-strategy selection partitions the (search, category)
combinations into exactly four query shapes - plain listing,
search-only, category-only, and search+category - and in the combined
case it over-fetches with limit 100 and skip 0, filters client-side to
the selected category, reports the filtered count as the total, and
slices the filtered list to the page window. -/
theorem fetch_strategy_four_shapes (s c : String) (page : Nat)
    (server : Query → FetchResult) :
    (s = "" ∧ c = "" →
      selectQuery s c page
        = { endpoint := Endpoint.list, limit := ITEMS_PER_PAGE,
            skip := (page - 1) * ITEMS_PER_PAGE, q := none }
      ∧ fetchProducts server s c page = server (selectQuery s c page))
    ∧ (s ≠ "" ∧ c = "" →
      selectQuery s c page
        = { endpoint := Endpoint.search, limit := ITEMS_PER_PAGE,
            skip := (page - 1) * ITEMS_PER_PAGE, q := some s }
      ∧ fetchProducts server s c page = server (selectQuery s c page))
    ∧ (s = "" ∧ c ≠ "" →
      selectQuery s c page
        = { endpoint := Endpoint.category c, limit := ITEMS_PER_PAGE,
            skip := (page - 1) * ITEMS_PER_PAGE, q := none }
      ∧ fetchProducts server s c page = server (selectQuery s c page))
    ∧ (s ≠ "" ∧ c ≠ "" →
      selectQuery s c page
        = { endpoint := Endpoint.search, limit := 100, skip := 0, q := some s }
      ∧ (fetchProducts server s c page).products
          = (((server (selectQuery s c page)).products.filter
                (fun p => p.category == c)).drop
              ((page - 1) * ITEMS_PER_PAGE)).take ITEMS_PER_PAGE
      ∧ (fetchProducts server s c page).total
          = ((server (selectQuery s c page)).products.filter
              (fun p => p.category == c)).length) := by
  refine ⟨?_, ?_, ?_, ?_⟩
  · rintro ⟨hs, hc⟩
    subst hs
    subst hc
    exact ⟨by simp [selectQuery], by simp [fetchProducts]⟩
  · rintro ⟨hs, hc⟩
    subst hc
    exact ⟨by simp [selectQuery, hs], by simp [fetchProducts, hs]⟩
  · rintro ⟨hs, hc⟩
    subst hs
    exact ⟨by simp [selectQuery, hc], by simp [fetchProducts, hc]⟩
  · rintro ⟨hs, hc⟩
    refine ⟨by simp [selectQuery, hs, hc], ?_, ?_⟩
    · simp [fetchProducts, hs, hc]
    · simp [fetchProducts, hs, hc]

/-- Witness for C2: a nonempty search term with a nonempty category
filter issues the over-fetching combined query. -/
theorem fetch_strategy_four_shapes_witness :
    selectQuery "phone" "beauty" 1
      = { endpoint := Endpoint.search, limit := 100, skip := 0, q := some "phone" } :=
  ((fetch_strategy_four_shapes "phone" "beauty" 1
      (fun _ => { products := [], total := 0 })).2.2.2
    ⟨by decide, by decide⟩).1

/-- The search text of the empty string, lowered, is the empty
character list. -/
lemma lowerChars_empty : lowerChars "" = ([] : List Char) := rfl

/-- C1: in the combined search+category branch the only client-side
matching is category equality - a fetched record survives the filter
exactly when its category equals the selected one - and, provided the
upstream search returns only records matching the case-insensitive
title/description/brand containment predicate, a record lies in the
client-side filtered pool exactly when it satisfies the full spec
predicate, every displayed record satisfies it as well, and empty
search text matches every record. -/
theorem combined_filter_matches_spec (q cat : String) (page : Nat)
    (server : Query → FetchResult)
    (hcat : cat ≠ "")
    (hup : ∀ r ∈ (server (selectQuery q cat page)).products, specSearchMatches q r = true) :
    (∀ r : Product,
      r ∈ (server (selectQuery q cat page)).products.filter (fun p => p.category == cat)
        ↔ r ∈ (server (selectQuery q cat page)).products ∧ specMatches q cat r = true)
    ∧ (q ≠ "" → ∀ r ∈ (fetchProducts server q cat page).products, specMatches q cat r = true)
    ∧ (∀ r : Product, specSearchMatches "" r = true) := by
  have hmem : ∀ r : Product,
      r ∈ (server (selectQuery q cat page)).products.filter (fun p => p.category == cat)
        ↔ r ∈ (server (selectQuery q cat page)).products ∧ specMatches q cat r = true := by
    intro r
    rw [List.mem_filter]
    constructor
    · rintro ⟨hr, hbeq⟩
      have hcr : r.category = cat := by simpa using hbeq
      refine ⟨hr, ?_⟩
      simp [specMatches, hup r hr, hcr]
    · rintro ⟨hr, hm⟩
      refine ⟨hr, ?_⟩
      simp only [specMatches, decide_eq_true_eq] at hm
      rcases hm.2 with hc0 | hcr
      · exact absurd hc0 hcat
      · simpa using hcr
  refine ⟨hmem, ?_, ?_⟩
  · intro hq r hr
    simp only [fetchProducts, if_pos (And.intro hq hcat)] at hr
    have hr2 := List.mem_of_mem_drop (List.mem_of_mem_take hr)
    exact ((hmem r).mp hr2).2
  · intro r
    simp only [specSearchMatches, lowerChars_empty]
    exact decide_eq_true (Or.inl (List.nil_infix))

/-- Witness for C1: the sample record matches the spec predicate for
search text phone and category beauty, via the theorem applied to a
one-record upstream response. -/
theorem combined_filter_matches_spec_witness :
    specMatches "phone" "beauty" sampleProduct = true := by
  have h := combined_filter_matches_spec "phone" "beauty" 1
    (fun _ => { products := [sampleProduct], total := 1 })
    (by decide) (by decide)
  exact h.2.1 (by decide) sampleProduct (by decide)

/-- `localeCompare` of a string with itself is zero. -/
lemma localeCompare_self (a : String) : localeCompare a a = 0 := by
  unfold localeCompare
  rw [if_neg (lt_irrefl a), if_neg (lt_irrefl a)]

/-- `localeCompare` is nonpositive exactly when the first string is at
most the second. -/
lemma localeCompare_nonpos {a b : String} : localeCompare a b ≤ 0 ↔ a ≤ b := by
  unfold localeCompare
  rcases lt_trichotomy a b with h | h | h
  · rw [if_pos h]
    simp [le_of_lt h]
  · subst h
    rw [if_neg (lt_irrefl a), if_neg (lt_irrefl a)]
    simp
  · rw [if_neg (lt_asymm h), if_pos h]
    constructor
    · intro hc
      exact absurd hc (by omega)
    · intro hc
      exact absurd hc (not_le.mpr h)

/-- `localeCompare` is antisymmetric in sign. -/
lemma localeCompare_swap (a b : String) : localeCompare b a = -localeCompare a b := by
  unfold localeCompare
  rcases lt_trichotomy a b with h | h | h
  · rw [if_neg (lt_asymm h), if_pos h, if_pos h]
    decide
  · subst h
    rw [if_neg (lt_irrefl a), if_neg (lt_irrefl a)]
    decide
  · rw [if_pos h, if_neg (lt_asymm h), if_pos h]

/-- `localeCompare` is nonnegative exactly when the second string is at
most the first. -/
lemma localeCompare_nonneg {a b : String} : 0 ≤ localeCompare a b ↔ b ≤ a := by
  rw [localeCompare_swap b a, neg_nonneg]
  exact localeCompare_nonpos

/-- The comparator ordering is transitive, for every column and
direction. -/
lemma sortLe_trans (col : SortCol) (dir : SortDir) :
    ∀ a b c : Product, sortLe col dir a b → sortLe col dir b c → sortLe col dir a c := by
  intro a b c hab hbc
  have hab2 : dirCompare col dir a b ≤ 0 := by simpa [sortLe] using hab
  have hbc2 : dirCompare col dir b c ≤ 0 := by simpa [sortLe] using hbc
  have : dirCompare col dir a c ≤ 0 := by
    cases dir <;> cases col <;>
      simp only [dirCompare, compareBy] at hab2 hbc2 ⊢ <;>
      first
        | omega
        | (rw [localeCompare_nonpos] at hab2 hbc2 ⊢
           exact le_trans hab2 hbc2)
        | (rw [neg_nonpos] at hab2 hbc2 ⊢
           rw [localeCompare_nonneg] at hab2 hbc2 ⊢
           exact le_trans hbc2 hab2)
  simpa [sortLe] using this

/-- The comparator ordering is total, for every column and direction. -/
lemma sortLe_total (col : SortCol) (dir : SortDir) :
    ∀ a b : Product, sortLe col dir a b || sortLe col dir b a := by
  intro a b
  have : dirCompare col dir a b ≤ 0 ∨ dirCompare col dir b a ≤ 0 := by
    cases dir <;> cases col <;>
      simp only [dirCompare, compareBy] <;>
      first
        | omega
        | (rw [localeCompare_nonpos, localeCompare_nonpos]
           exact le_total a.title b.title)
        | (rw [neg_nonpos, neg_nonpos, localeCompare_nonneg, localeCompare_nonneg]
           exact le_total b.title a.title)
  simpa [sortLe, Bool.or_eq_true] using this

/-- Records with equal sort keys compare as zero, in both directions. -/
lemma dirCompare_eq_zero_of_sortKey_eq {col : SortCol} {dir : SortDir} {a b : Product}
    (h : sortKey col a = sortKey col b) : dirCompare col dir a b = 0 := by
  cases col <;>
    simp only [sortKey, SKey.num.injEq, SKey.str.injEq] at h <;>
    cases dir <;>
    simp only [dirCompare, compareBy] <;>
    first
      | omega
      | simp [h, localeCompare_self]

/-- C3: with a sort column active, the displayed list is a stable sort
of the fetched list under the signed comparator: it is a permutation of
the input, pairwise ordered by the comparator being nonpositive,
records of equal sort key keep their fetched relative order, the
descending comparator is the negation of the ascending one, and with no
active column the list is unchanged. -/
theorem display_is_stable_sort (col : SortCol) (dir : SortDir) (l : List Product) :
    (applySort { sortBy := some col, sortOrder := dir } l).Perm l
    ∧ (applySort { sortBy := some col, sortOrder := dir } l).Pairwise
        (fun a b => dirCompare col dir a b ≤ 0)
    ∧ (∀ v : SKey,
        (applySort { sortBy := some col, sortOrder := dir } l).filter
            (fun r => sortKey col r = v)
          = l.filter (fun r => sortKey col r = v))
    ∧ (∀ a b : Product, dirCompare col SortDir.desc a b
        = -(dirCompare col SortDir.asc a b))
    ∧ applySort { sortBy := none, sortOrder := dir } l = l := by
  have hdef : applySort { sortBy := some col, sortOrder := dir } l
      = l.mergeSort (fun a b => sortLe col dir a b) := rfl
  refine ⟨?_, ?_, ?_, fun a b => rfl, rfl⟩
  · rw [hdef]
    exact List.mergeSort_perm l _
  · rw [hdef]
    have hs := List.sorted_mergeSort (sortLe_trans col dir) (sortLe_total col dir) l
    refine hs.imp ?_
    intro a b hab
    simpa [sortLe] using hab
  · intro v
    rw [hdef]
    have hpair : (l.filter (fun r => sortKey col r = v)).Pairwise
        (fun a b => sortLe col dir a b) := by
      apply List.pairwise_of_forall_mem_list
      intro a ha b hb
      have hka : sortKey col a = v := by simpa using (List.mem_filter.mp ha).2
      have hkb : sortKey col b = v := by simpa using (List.mem_filter.mp hb).2
      have hz : dirCompare col dir a b = 0 :=
        dirCompare_eq_zero_of_sortKey_eq (hka.trans hkb.symm)
      simp [sortLe, hz]
    have hsub : (l.filter (fun r => sortKey col r = v)).Sublist
        (l.mergeSort (fun a b => sortLe col dir a b)) :=
      List.sublist_mergeSort (sortLe_trans col dir) (sortLe_total col dir)
        hpair (List.filter_sublist l)
    have hidem : (l.filter (fun r => sortKey col r = v)).filter
        (fun r => sortKey col r = v) = l.filter (fun r => sortKey col r = v) :=
      List.filter_eq_self.mpr (fun a ha => (List.mem_filter.mp ha).2)
    have hsub2 : (l.filter (fun r => sortKey col r = v)).Sublist
        ((l.mergeSort (fun a b => sortLe col dir a b)).filter
            (fun r => sortKey col r = v)) := by
      have := hsub.filter (fun r => sortKey col r = v)
      rwa [hidem] at this
    have hlen : ((l.mergeSort (fun a b => sortLe col dir a b)).filter
          (fun r => sortKey col r = v)).length
        = (l.filter (fun r => sortKey col r = v)).length :=
      ((List.mergeSort_perm l _).filter _).length_eq
    exact (hsub2.eq_of_length hlen.symm).symm

/-- For a numeric column, the sort key is the integer key. -/
lemma sortKey_of_numeric {col : SortCol} (h : col.isNumeric = true) (a : Product) :
    sortKey col a = SKey.num (numKey col a) := by
  cases col
  · rfl
  · rfl
  · rfl
  · simp [SortCol.isNumeric] at h
  · rfl

/-- For a numeric column, the comparison is subtraction of the integer
keys. -/
lemma compareBy_of_numeric {col : SortCol} (h : col.isNumeric = true) (a b : Product) :
    compareBy col a b = numKey col a - numKey col b := by
  cases col
  · rfl
  · rfl
  · rfl
  · simp [SortCol.isNumeric] at h
  · rfl

/-- C8: for a numeric sort column whose keys are pairwise distinct on
the fetched list, sorting descending yields exactly the reverse of
sorting ascending. -/
theorem desc_reverses_asc_on_distinct_keys (col : SortCol) (l : List Product)
    (hnum : col.isNumeric = true)
    (hdist : l.Pairwise (fun a b => sortKey col a ≠ sortKey col b)) :
    applySort { sortBy := some col, sortOrder := SortDir.desc } l
      = (applySort { sortBy := some col, sortOrder := SortDir.asc } l).reverse := by
  have hdist2 : l.Pairwise (fun a b => numKey col a ≠ numKey col b) := by
    refine hdist.imp ?_
    intro a b hab heq
    exact hab (by rw [sortKey_of_numeric hnum, sortKey_of_numeric hnum, heq])
  have hAperm := List.mergeSort_perm l (fun a b => sortLe col SortDir.asc a b)
  have hDperm := List.mergeSort_perm l (fun a b => sortLe col SortDir.desc a b)
  have hApairLe : (l.mergeSort (fun a b => sortLe col SortDir.asc a b)).Pairwise
      (fun a b => numKey col a ≤ numKey col b) := by
    have hs := List.sorted_mergeSort (sortLe_trans col SortDir.asc)
      (sortLe_total col SortDir.asc) l
    refine hs.imp ?_
    intro a b hab
    have h1 : dirCompare col SortDir.asc a b ≤ 0 := by simpa [sortLe] using hab
    have h2 : compareBy col a b ≤ 0 := h1
    rw [compareBy_of_numeric hnum] at h2
    omega
  have hApairNe : (l.mergeSort (fun a b => sortLe col SortDir.asc a b)).Pairwise
      (fun a b => numKey col a ≠ numKey col b) :=
    (hAperm.pairwise_iff (fun hab => Ne.symm hab)).mpr hdist2
  have hAstrict : (l.mergeSort (fun a b => sortLe col SortDir.asc a b)).Pairwise
      (fun a b => numKey col a < numKey col b) := by
    refine (hApairLe.and hApairNe).imp ?_
    intro a b hab
    exact lt_of_le_of_ne hab.1 hab.2
  have hDpairGe : (l.mergeSort (fun a b => sortLe col SortDir.desc a b)).Pairwise
      (fun a b => numKey col b ≤ numKey col a) := by
    have hs := List.sorted_mergeSort (sortLe_trans col SortDir.desc)
      (sortLe_total col SortDir.desc) l
    refine hs.imp ?_
    intro a b hab
    have h1 : dirCompare col SortDir.desc a b ≤ 0 := by simpa [sortLe] using hab
    have h2 : -(compareBy col a b) ≤ 0 := h1
    rw [compareBy_of_numeric hnum] at h2
    omega
  have hDrevLe : ((l.mergeSort (fun a b => sortLe col SortDir.desc a b)).reverse).Pairwise
      (fun a b => numKey col a ≤ numKey col b) := by
    rw [List.pairwise_reverse]
    exact hDpairGe
  have hDrevNe : ((l.mergeSort (fun a b => sortLe col SortDir.desc a b)).reverse).Pairwise
      (fun a b => numKey col a ≠ numKey col b) := by
    rw [List.pairwise_reverse]
    refine ((hDperm.pairwise_iff (fun hab => Ne.symm hab)).mpr hdist2).imp ?_
    intro a b hab
    exact Ne.symm hab
  have hDrevStrict : ((l.mergeSort (fun a b => sortLe col SortDir.desc a b)).reverse).Pairwise
      (fun a b => numKey col a < numKey col b) := by
    refine (hDrevLe.and hDrevNe).imp ?_
    intro a b hab
    exact lt_of_le_of_ne hab.1 hab.2
  have hpermRA : ((l.mergeSort (fun a b => sortLe col SortDir.desc a b)).reverse).Perm
      (l.mergeSort (fun a b => sortLe col SortDir.asc a b)) :=
    ((List.reverse_perm _).trans hDperm).trans hAperm.symm
  haveI : IsAntisymm Product (fun a b => numKey col a < numKey col b) :=
    ⟨fun a b h1 h2 => absurd h2 (not_lt_of_gt h1)⟩
  have heq : (l.mergeSort (fun a b => sortLe col SortDir.desc a b)).reverse
      = l.mergeSort (fun a b => sortLe col SortDir.asc a b) :=
    List.eq_of_perm_of_sorted hpermRA hDrevStrict hAstrict
  show l.mergeSort (fun a b => sortLe col SortDir.desc a b)
      = (l.mergeSort (fun a b => sortLe col SortDir.asc a b)).reverse
  rw [← heq, List.reverse_reverse]

/-- Witness for C8 on two concrete records with distinct prices. -/
theorem desc_reverses_asc_witness :
    applySort { sortBy := some SortCol.price, sortOrder := SortDir.desc }
        [sampleProduct, sampleProduct2]
      = (applySort { sortBy := some SortCol.price, sortOrder := SortDir.asc }
          [sampleProduct, sampleProduct2]).reverse :=
  desc_reverses_asc_on_distinct_keys SortCol.price [sampleProduct, sampleProduct2]
    (by decide) (by decide)

end ProductDash
